import Mathlib

/-!
Shallow embedding of the SNOTEL water-year ingestion pipeline
(`database/SNOTEL/snotel_to_db.py`): the water-year-to-calendar-date
reconstruction (`import_snotel`), the per-site variable merge, the
incremental-precipitation derivation, and the deduplicating per-site
sqlite writer (`write_db` / `get_unique_dates`).

Calendar dates are represented by their civil day number (days since
1970-01-01, via the standard days-from-civil algorithm), so that the
contiguous daily indices produced by `pd.date_range` become integer
ranges and `shift(1)` becomes "previous day number".  Measurement
values are idealized as `Int`.  Fallible Python code (uncaught
`ValueError` / `IndexError` from `int`, `strptime` and indexing)
is rendered with `Except String`.
-/

namespace Snotel

/-! ## Calendar arithmetic -/

/-- Gregorian leap-year test, as used by `datetime`. -/
def isLeap (y : Int) : Bool :=
  y % 4 == 0 && (y % 100 != 0 || y % 400 == 0)

/-- Number of days in month `m` of year `y` (the bound `datetime` checks). -/
def daysInMonth (y : Int) (m : Nat) : Nat :=
  if m = 2 then (if isLeap y then 29 else 28)
  else if m = 4 ∨ m = 6 ∨ m = 9 ∨ m = 11 then 30
  else 31

/-- Civil day number of (y, m, d): days since 1970-01-01 (Hinnant's
days-from-civil algorithm, the standard encoding of proleptic Gregorian
dates used by `datetime`/`pandas` timestamps at day granularity). -/
def daysFromCivil (y : Int) (m d : Nat) : Int :=
  let yAdj : Int := if (m : Int) ≤ 2 then y - 1 else y
  let era : Int := (if 0 ≤ yAdj then yAdj else yAdj - 399) / 400
  let yoe : Int := yAdj - era * 400
  let mp : Int := ((m : Int) + 9) % 12
  let doy : Int := (153 * mp + 2) / 5 + (d : Int) - 1
  let doe : Int := yoe * 365 + yoe / 4 - yoe / 100 + doy
  era * 146097 + doe - 719468

/-! ## Label parsing (`int(i[:2])` and `strptime(f"{i}-{year}", "%m-%d-%Y")`) -/

/-- Value of a digit string. -/
def digitsVal (cs : List Char) : Nat :=
  cs.foldl (fun n c => n * 10 + (c.toNat - 48)) 0

/-- `int(s)` on a string of decimal digits: succeeds exactly on nonempty
all-digit strings (matching Python `int` on the strings reachable here). -/
def digitsToNat (cs : List Char) : Option Nat :=
  if cs ≠ [] ∧ cs.all Char.isDigit then some (digitsVal cs) else none

/-- `int(s)` on a full string, as applied to column labels: an optional
minus sign followed by digits (`int` also strips whitespace and accepts
a plus sign, which the data never contains). -/
def intOfString (l : String) : Option Int :=
  match l.data with
  | '-' :: cs => (digitsToNat cs).map (fun n => -(n : Int))
  | cs => (digitsToNat cs).map (fun n => (n : Int))

/-- Split a character list at every dash, like `str.split("-")`. -/
def splitOnDash : List Char → List (List Char)
  | [] => [[]]
  | c :: cs =>
      if c = '-' then [] :: splitOnDash cs
      else
        match splitOnDash cs with
        | [] => [[c]]
        | g :: gs => (c :: g) :: gs

/-- Parse a day-of-year row label `"MM-DD"` into month and day numbers,
as the `%m-%d` part of `strptime` accepts it: exactly two dash-separated
groups of at most two digits each. -/
def labelMD (l : String) : Option (Nat × Nat) :=
  match splitOnDash l.data with
  | [ms, ds] =>
      if ms.length ≤ 2 ∧ ds.length ≤ 2 then
        match digitsToNat ms, digitsToNat ds with
        | some mm, some dd => some (mm, dd)
        | _, _ => none
      else none
  | _ => none

/-- `dt.datetime.strptime(f"{l}-{y}", "%m-%d-%Y")` at day granularity:
the label must read as a month/day pair, the year must be four digits,
and the day must exist in that month of that year (Feb 29 only in leap
years); returns the civil day number, or `none` where `strptime` raises
`ValueError`. -/
def strptimeMD (l : String) (y : Int) : Option Int :=
  match labelMD l with
  | some (mm, dd) =>
      if 1 ≤ mm ∧ mm ≤ 12 ∧ 1 ≤ dd ∧ dd ≤ daysInMonth y mm ∧ 1000 ≤ y ∧ y ≤ 9999 then
        some (daysFromCivil y mm dd)
      else none
  | none => none

/-! ## Raw water-year tables and calendar frames -/

/-- The raw per-variable table `f = pd.read_csv(...)`: row labels are the
`"MM-DD"` day-of-year index, each column is a (water-year-labelled) list
of cells aligned with the row labels, a cell being a value or missing. -/
structure RawTable where
  rowLabels : List String
  cols : List (String × List (Option Int))

/-- A calendar-indexed value frame: the contiguous daily index
`pd.date_range(lo, hi)` together with the (possibly null) value stored
at each day. -/
structure Frame where
  lo : Int
  hi : Int
  vals : Int → Option Int

/-- Value of the frame at day `d`: the stored value inside the index
window, null outside it. -/
def Frame.atDay (fr : Frame) (d : Int) : Option Int :=
  if fr.lo ≤ d ∧ d ≤ fr.hi then fr.vals d else none

/-- `f.loc[:, year].dropna()`: the (label, value) pairs of one column
whose cells are present. -/
def dropna (labels : List String) (cells : List (Option Int)) : List (String × Int) :=
  (labels.zip cells).filterMap (fun p => p.2.map (fun v => (p.1, v)))

/-- `mapM` over `Except String`, written out recursively: the first
error aborts, exactly like an uncaught Python exception in a loop. -/
def mapExcept {α β : Type} (f : α → Except String β) : List α → Except String (List β)
  | [] => Except.ok []
  | a :: l =>
      match f a with
      | Except.error e => Except.error e
      | Except.ok b =>
          match mapExcept f l with
          | Except.error e => Except.error e
          | Except.ok bs => Except.ok (b :: bs)

instance {ε α : Type} [DecidableEq ε] [DecidableEq α] : DecidableEq (Except ε α) := fun x y =>
  match x, y with
  | Except.ok a, Except.ok b =>
      if h : a = b then isTrue (by rw [h]) else isFalse (fun hh => h (Except.ok.inj hh))
  | Except.error a, Except.error b =>
      if h : a = b then isTrue (by rw [h]) else isFalse (fun hh => h (Except.error.inj hh))
  | Except.ok _, Except.error _ => isFalse (fun hh => Except.noConfusion hh)
  | Except.error _, Except.ok _ => isFalse (fun hh => Except.noConfusion hh)

/-- One iteration of the inner loop of `import_snotel` (lines 114-118):
`int(i[:2])` decides whether the calendar year is `year - 1` (month ≥ 10)
or `year`, then `strptime` builds the date for the retained value. -/
def colPoint (y : Int) (e : String × Int) : Except String (Int × Int) :=
  match digitsToNat (e.1.data.take 2) with
  | none => Except.error "ValueError: invalid literal for int"
  | some mm =>
      match strptimeMD e.1 (if 10 ≤ mm then y - 1 else y) with
      | some d => Except.ok (d, e.2)
      | none => Except.error "ValueError: time data does not match format"

/-- All calendar points of one water-year column: every non-missing row
is converted; the first conversion error propagates. -/
def colPoints (entries : List (String × Int)) (y : Int) : Except String (List (Int × Int)) :=
  mapExcept (colPoint y) entries

/-- `snotel_in.loc[year_data.index, var] = year_data`: write the points
into the value map, a later write to the same day overwriting an earlier
one. -/
def applyPts (vals : Int → Option Int) (pts : List (Int × Int)) : Int → Option Int :=
  pts.foldl (fun vl p => fun x => if x = p.1 then some p.2 else vl x) vals

/-- Line 96: the start of the coverage window,
`strptime(f"{f.index[0]}-{int(f.columns[0])-1}", "%m-%d-%Y")` — the first
row label placed in the year before the first column's water year.
Missing first row/column or a failed parse raises. -/
def bootstrap (f : RawTable) : Except String Int :=
  match f.rowLabels.head?, f.cols.head? with
  | some l, some c =>
      match intOfString c.1 with
      | some y =>
          match strptimeMD l (y - 1) with
          | some d => Except.ok d
          | none => Except.error "ValueError: time data does not match format"
      | none => Except.error "ValueError: invalid literal for int"
  | _, _ => Except.error "IndexError: index out of range"

/-- The column loop of `import_snotel` (lines 104-123): a column whose
label does not parse as an integer is skipped (`except ValueError:
continue`); otherwise its non-missing rows are converted to calendar
points and written into the frame. -/
def addCols (labels : List String) : List (String × List (Option Int)) → Frame → Except String Frame
  | [], fr => Except.ok fr
  | c :: cs, fr =>
      match intOfString c.1 with
      | none => addCols labels cs fr
      | some y =>
          match colPoints (dropna labels c.2) y with
          | Except.error e => Except.error e
          | Except.ok pts => addCols labels cs { fr with vals := applyPts fr.vals pts }

/-- Lines 127-131: the incremental-precipitation value at day `d` of the
contiguous index — `cumulative[d] - cumulative[d-1]` via `shift(1)`
(null at the first index day and whenever either reading is null),
with negative results then clamped to zero. -/
def precInc (fr : Frame) (d : Int) : Option Int :=
  if d = fr.lo then none
  else
    match fr.atDay d, fr.atDay (d - 1) with
    | some a, some b => some (if a - b < 0 then 0 else a - b)
    | _, _ => none

/-- `snotel_in["PREC"] = snotel_in["PREC"] - snotel_in["PREC"].shift(1)`
followed by the negative clamp, applied over the whole index. -/
def derivePrec (fr : Frame) : Frame :=
  { lo := fr.lo, hi := fr.hi, vals := fun d => precInc fr d }

/-- Reconstruction of one variable of one site (`import_snotel`, lines
93-134): bootstrap the contiguous daily window ending `today`, fold all
integer-labelled water-year columns into it, and for `PREC` replace the
column by daily increments. -/
def importVar (var : String) (f : RawTable) (today : Int) : Except String Frame :=
  match bootstrap f with
  | Except.error e => Except.error e
  | Except.ok start =>
      match addCols f.rowLabels f.cols { lo := start, hi := today, vals := fun _ => none } with
      | Except.error e => Except.error e
      | Except.ok fr => Except.ok (if var = "PREC" then derivePrec fr else fr)

/-! ## Per-site merge (`import_snotel`, lines 136-156) -/

/-- Lines 139-141: fold of `if snotel_dict[key].index.min() < begin`
over all variable frames, seeded with `now`; an empty index (`NaT`
minimum) never passes the comparison. -/
def coverageBegin (frames : List Frame) (seed : Int) : Int :=
  frames.foldl (fun b fr => if fr.lo ≤ fr.hi ∧ fr.lo < b then fr.lo else b) seed

/-- Lines 142-143: fold of `if snotel_dict[key].index.max() > end` over
all variable frames, seeded with `now`. -/
def coverageEnd (frames : List Frame) (seed : Int) : Int :=
  frames.foldl (fun e fr => if fr.lo ≤ fr.hi ∧ e < fr.hi then fr.hi else e) seed

/-- `pd.date_range(b, e, freq="D")` as a list of day numbers. -/
def dateRange (b e : Int) : List Int :=
  (List.range (e + 1 - b).toNat).map (fun (k : Nat) => b + (k : Int))

/-- The merged per-site frame: the `site` column, the unified daily
index, and one (left-joined, hence possibly null) column per variable. -/
structure SiteFrame where
  site : String
  index : List Int
  col : String → Int → Option Int

/-- Lines 145-154: build the contiguous daily index over the coverage
window and left-join each variable's frame onto it (`how="left"`), so a
day a variable does not cover stays null. -/
def mergeFrames (site : String) (frames : List (String × Frame)) (now : Int) : SiteFrame :=
  { site := site
    index := dateRange (coverageBegin (frames.map Prod.snd) now) (coverageEnd (frames.map Prod.snd) now)
    col := fun v d =>
      match frames.lookup v with
      | some fr => fr.atDay d
      | none => none }

/-- `import_snotel` for one site: reconstruct every requested variable
(the first uncaught exception aborts) and merge the resulting frames. -/
def importSite (site : String) (tables : List (String × RawTable)) (today now : Int) :
    Except String SiteFrame :=
  match mapExcept (fun p => (importVar p.1 p.2 today).map (fun fr => (p.1, fr))) tables with
  | Except.error e => Except.error e
  | Except.ok frames => Except.ok (mergeFrames site frames now)

/-- The `__main__` site loop: `import_snotel` is called for every site
with no surrounding try/except, so one site's exception ends the run
before later sites are processed. -/
def runImports : List (String × List (String × RawTable)) → Int → Int →
    Except String (List SiteFrame)
  | [], _, _ => Except.ok []
  | s :: rest, today, now =>
      match importSite s.1 s.2 today now with
      | Except.error e => Except.error e
      | Except.ok fr =>
          match runImports rest today now with
          | Except.error e => Except.error e
          | Except.ok frs => Except.ok (fr :: frs)

/-! ## The deduplicating writer (`get_unique_dates` / `write_db`) -/

/-- One row of the merged table handed to `write_db`: its `site` value,
its `date` value (null for `NaT`), and its measurement payload. -/
structure Row where
  site : String
  date : Option Nat
  val : Int
deriving DecidableEq

/-- The sqlite store: whether the database file exists yet, and the
rows of each table by table name. -/
structure Store where
  fileExists : Bool
  tables : String → Option (List Row)

/-- The `if_exists` modes exercised by the writer. -/
inductive IfExists where
  | replace
  | append
deriving DecidableEq

/-- `get_unique_dates(tbl_name, db_path)`: the distinct non-null dates
of table `tbl` — empty if the database file does not exist, if the
query raises any exception (`except Exception`), or if the table is
absent (`no such table`, also an exception). -/
def getUniqueDates (queryFails : String → Bool) (store : Store) (tbl : String) : List Nat :=
  if store.fileExists = false then []
  else if queryFails tbl = true then []
  else
    match store.tables tbl with
    | none => []
    | some rows => (rows.filterMap Row.date).dedup

/-- `df_site.to_sql(tbl, con, if_exists=...)`: replace drops any
existing rows, append keeps them (creating the table when absent);
either way the database file exists afterwards. -/
def toSql (store : Store) (tbl : String) (mode : IfExists) (rows : List Row) : Store :=
  { fileExists := true
    tables := fun t =>
      if t = tbl then
        some ((match mode with
          | IfExists.replace => []
          | IfExists.append => (store.tables tbl).getD []) ++ rows)
      else store.tables t }

/-- The body of the site loop of `write_db` (lines 225-259): partition
the incoming table on `site`, skip an empty partition, in
append-with-dedup mode drop rows whose date is in
`get_unique_dates(site_id, db_path)` (note: queried under the bare site
id, while the write goes to table `snotel_{site_id}`), then write,
swallowing `sqlite3.Error` so a failed write leaves the store as it
was. -/
def writeSiteStep (mode : IfExists) (checkDups : Bool) (queryFails sqliteFails : String → Bool)
    (df : List Row) (store : Store) (site : String) : Store :=
  if df.filter (fun r => r.site = site) = [] then store
  else
    if sqliteFails ("snotel_" ++ site) = true then store
    else
      toSql store ("snotel_" ++ site) mode
        (if mode = IfExists.append ∧ checkDups = true then
          (df.filter (fun r => r.site = site)).filter (fun r =>
            match r.date with
            | none => true
            | some d => !((getUniqueDates queryFails store site).contains d))
        else df.filter (fun r => r.site = site))

/-- `pd.unique(df['site'])`: the distinct site identifiers of the
incoming table. -/
def uniqueSites (df : List Row) : List String :=
  (df.map Row.site).dedup

/-- `write_db`: run the site loop over every distinct site of the
incoming merged table. -/
def writeDb (mode : IfExists) (checkDups : Bool) (queryFails sqliteFails : String → Bool)
    (df : List Row) (store : Store) : Store :=
  (uniqueSites df).foldl (writeSiteStep mode checkDups queryFails sqliteFails df) store

/-- A store is well-formed when a missing database file carries no
tables. -/
def Store.wf (store : Store) : Prop :=
  store.fileExists = false → ∀ t, store.tables t = none

/-- The error string of an `Except`, if any; `none` for success. -/
def errOf {α : Type} : Except String α → Option String
  | Except.error e => some e
  | Except.ok _ => none

/-! ## Helper lemmas -/

lemma mapExcept_ok_mem {α β : Type} (f : α → Except String β) (l : List α) (out : List β)
    (hok : mapExcept f l = Except.ok out) (a : α) (ha : a ∈ l) :
    ∃ b, f a = Except.ok b ∧ b ∈ out := by
  induction l generalizing out with
  | nil => cases ha
  | cons x xs ih =>
    simp only [mapExcept] at hok
    cases hfx : f x with
    | error e => rw [hfx] at hok; cases hok
    | ok b =>
      rw [hfx] at hok
      cases hrest : mapExcept f xs with
      | error e => rw [hrest] at hok; cases hok
      | ok bs =>
        rw [hrest] at hok
        have hout : out = b :: bs := (Except.ok.inj hok).symm
        rcases List.mem_cons.mp ha with h | h
        · exact ⟨b, h ▸ hfx, by simp [hout]⟩
        · obtain ⟨c, hc1, hc2⟩ := ih bs hrest h
          exact ⟨c, hc1, by simp [hout, hc2]⟩

/-! ## Example data used by witnesses and counterexamples -/

/-- Cumulative precipitation `[100, 100, 98, 105]` on days 0..3. -/
def precExample : Frame :=
  ⟨0, 3, fun d => if d = 0 then some 100 else if d = 1 then some 100
    else if d = 2 then some 98 else if d = 3 then some 105 else none⟩

/-- Cumulative series with an interior gap: days 0, 2, 3 reported, day 1
missing. -/
def gapExample : Frame :=
  ⟨0, 3, fun d => if d = 0 then some 100 else if d = 2 then some 105
    else if d = 3 then some 106 else none⟩

/-- A raw table whose first row label is not a day-of-year label. -/
def badLabelTable : RawTable := ⟨["bogus"], [("2020", [some 1])]⟩

/-- A minimal well-formed raw table. -/
def goodTable : RawTable := ⟨["10-01"], [("2020", [some 1])]⟩

/-- A raw table whose only (hence first) column label is not an integer. -/
def badColTable : RawTable := ⟨["10-01"], [("Median", [some 1])]⟩

/-! ## Claim theorems -/

/-- Claim C1: every value a water-year column `Y` emits for a row whose
label reads as month `MM`, day `DD` is assigned to the calendar date
`(Y-1, MM, DD)` when `MM ≥ 10` and to `(Y, MM, DD)` when `MM < 10`. -/
theorem water_year_assignment (entries : List (String × Int)) (y : Int) (pts : List (Int × Int))
    (l : String) (v : Int) (mm dd : Nat)
    (hok : colPoints entries y = Except.ok pts) (hmem : (l, v) ∈ entries)
    (hmd : labelMD l = some (mm, dd)) (hint : digitsToNat (l.data.take 2) = some mm) :
    (daysFromCivil (if 10 ≤ mm then y - 1 else y) mm dd, v) ∈ pts := by
  obtain ⟨b, hb, hbmem⟩ := mapExcept_ok_mem (colPoint y) entries pts hok (l, v) hmem
  unfold colPoint at hb
  rw [hint] at hb
  have hb2 : (match strptimeMD l (if 10 ≤ mm then y - 1 else y) with
      | some d => Except.ok (d, v)
      | none => (Except.error "ValueError: time data does not match format" :
          Except String (Int × Int))) = Except.ok b := hb
  cases hs : strptimeMD l (if 10 ≤ mm then y - 1 else y) with
  | none => rw [hs] at hb2; cases hb2
  | some d0 =>
    rw [hs] at hb2
    have hbd : b = (d0, v) := (Except.ok.inj hb2).symm
    unfold strptimeMD at hs
    rw [hmd] at hs
    have hs2 : (if 1 ≤ mm ∧ mm ≤ 12 ∧ 1 ≤ dd ∧
        dd ≤ daysInMonth (if 10 ≤ mm then y - 1 else y) mm ∧
        1000 ≤ (if 10 ≤ mm then y - 1 else y) ∧ (if 10 ≤ mm then y - 1 else y) ≤ 9999 then
          some (daysFromCivil (if 10 ≤ mm then y - 1 else y) mm dd) else none) = some d0 := hs
    by_cases hvalid : 1 ≤ mm ∧ mm ≤ 12 ∧ 1 ≤ dd ∧
        dd ≤ daysInMonth (if 10 ≤ mm then y - 1 else y) mm ∧
        1000 ≤ (if 10 ≤ mm then y - 1 else y) ∧ (if 10 ≤ mm then y - 1 else y) ≤ 9999
    · rw [if_pos hvalid] at hs2
      have : d0 = daysFromCivil (if 10 ≤ mm then y - 1 else y) mm dd := (Option.some.inj hs2).symm
      rw [← this]
      exact hbd ▸ hbmem
    · rw [if_neg hvalid] at hs2; cases hs2

/-- Witness for C1 at the claim's own instances: row `"11-15"` under
column 2020 is assigned to 2019-11-15, and row `"03-10"` under column
2020 to 2020-03-10. -/
theorem water_year_assignment_witness :
    (daysFromCivil (if 10 ≤ 11 then 2020 - 1 else 2020) 11 15, 5) ∈
      [(daysFromCivil 2019 11 15, (5 : Int))] ∧
    (daysFromCivil (if 10 ≤ 3 then 2020 - 1 else 2020) 3 10, 7) ∈
      [(daysFromCivil 2020 3 10, (7 : Int))] :=
  ⟨water_year_assignment [("11-15", 5)] 2020 [(daysFromCivil 2019 11 15, 5)] "11-15" 5 11 15
      (by decide) (by decide) (by decide) (by decide),
    water_year_assignment [("03-10", 7)] 2020 [(daysFromCivil 2020 3 10, 7)] "03-10" 7 3 10
      (by decide) (by decide) (by decide) (by decide)⟩

/-- Counterexample to claim C3: a non-missing `"02-29"` row is assigned
to calendar year `Y`, not `Y-1`.  Under column 2021 (where `Y-1 = 2020`
is a leap year, so the claim demands the point at 2020-02-29) the code
raises a `ValueError` instead of emitting or dropping; under column 2020
(where `Y-1 = 2019` is not a leap year, so the claim demands a silent
drop) the code emits the point at 2020-02-29. -/
theorem feb29_counterexample :
    errOf (colPoints [("02-29", 1)] 2021) = some "ValueError: time data does not match format" ∧
    isLeap 2020 = true ∧
    colPoints [("02-29", 1)] 2020 = Except.ok [(daysFromCivil 2020 2 29, 1)] ∧
    isLeap 2019 = false := by
  refine ⟨by decide, by decide, by decide, by decide⟩

/-- Claim C3 as amended: a non-missing `"02-29"` value under water-year
column `Y` is assigned to calendar year `Y` (February is before October);
it is emitted at `Y`-02-29 when `Y` is a leap year and makes
reconstruction raise when `Y` is not, while a missing `"02-29"` cell is
silently dropped by `dropna` before any date is built. -/
theorem feb29_amended (v : Int) (y : Int) (h1 : 1000 ≤ y) (h2 : y ≤ 9999) :
    (isLeap y = true → colPoints [("02-29", v)] y = Except.ok [(daysFromCivil y 2 29, v)]) ∧
    (isLeap y = false → errOf (colPoints [("02-29", v)] y) ≠ none) ∧
    colPoints (dropna ["02-29"] [none]) y = Except.ok ([] : List (Int × Int)) := by
  have e1 : colPoint y ("02-29", v)
      = (match strptimeMD "02-29" y with
         | some d => Except.ok (d, v)
         | none => (Except.error "ValueError: time data does not match format" :
             Except String (Int × Int))) := rfl
  have e2 : strptimeMD "02-29" y
      = (if 1 ≤ 2 ∧ 2 ≤ 12 ∧ 1 ≤ 29 ∧ 29 ≤ daysInMonth y 2 ∧ 1000 ≤ y ∧ y ≤ 9999 then
          some (daysFromCivil y 2 29) else none) := rfl
  refine ⟨?_, ?_, rfl⟩
  · intro hleap
    have hcond : 1 ≤ 2 ∧ 2 ≤ 12 ∧ 1 ≤ 29 ∧ 29 ≤ daysInMonth y 2 ∧ 1000 ≤ y ∧ y ≤ 9999 := by
      refine ⟨by norm_num, by norm_num, by norm_num, ?_, h1, h2⟩
      simp [daysInMonth, hleap]
    have hcp : colPoint y ("02-29", v) = Except.ok (daysFromCivil y 2 29, v) := by
      rw [e1, e2, if_pos hcond]
    show mapExcept (colPoint y) [("02-29", v)] = _
    unfold mapExcept
    rw [hcp]
    exact rfl
  · intro hleap
    have hcond : ¬ (1 ≤ 2 ∧ 2 ≤ 12 ∧ 1 ≤ 29 ∧ 29 ≤ daysInMonth y 2 ∧ 1000 ≤ y ∧ y ≤ 9999) := by
      simp [daysInMonth, hleap]
    have hcp : colPoint y ("02-29", v)
        = Except.error "ValueError: time data does not match format" := by
      rw [e1, e2, if_neg hcond]
    show errOf (mapExcept (colPoint y) [("02-29", v)]) ≠ none
    unfold mapExcept
    rw [hcp]
    simp [errOf]

/-- Witness for the amended C3: under column 2024 (a leap year) the
non-missing `"02-29"` value is emitted at 2024-02-29. -/
theorem feb29_amended_witness :
    colPoints [("02-29", 1)] 2024 = Except.ok [(daysFromCivil 2024 2 29, 1)] :=
  (feb29_amended 1 2024 (by decide) (by decide)).1 (by decide)

/-- Claim C4: the derived precipitation column is null at the first
index day, equals `cumulative[d] - cumulative[d-1]` clamped at zero
elsewhere, and on the cumulative series `[100, 100, 98, 105]` evaluates
to `[null, 0, 0, 7]`. -/
theorem prec_increment_clamped (fr : Frame) :
    ((fr.lo ≤ fr.hi → (derivePrec fr).atDay fr.lo = none) ∧
      (∀ d a b, fr.lo < d → d ≤ fr.hi → fr.atDay d = some a → fr.atDay (d - 1) = some b →
        (derivePrec fr).atDay d = some (if a - b < 0 then 0 else a - b))) ∧
    ((derivePrec precExample).atDay 0 = none ∧ (derivePrec precExample).atDay 1 = some 0 ∧
      (derivePrec precExample).atDay 2 = some 0 ∧ (derivePrec precExample).atDay 3 = some 7) := by
  refine ⟨⟨?_, ?_⟩, by decide, by decide, by decide, by decide⟩
  · intro h
    simp [derivePrec, Frame.atDay, precInc, h]
  · intro d a b h1 h2 h3 h4
    simp only [derivePrec, Frame.atDay]
    rw [if_pos ⟨le_of_lt h1, h2⟩]
    unfold precInc
    rw [if_neg (ne_of_gt h1), h3, h4]

/-- Witness for C4: on the example series, day 3's increment is the
clamped difference `105 - 98 = 7`. -/
theorem prec_increment_clamped_witness :
    (derivePrec precExample).atDay 3 = some (if (105 : Int) - 98 < 0 then 0 else 105 - 98) :=
  (prec_increment_clamped precExample).1.2 3 105 98 (by decide) (by decide) (by decide) (by decide)

/-- Claim C9: when the previous calendar day of the contiguous index has
no cumulative reading, the derived increment is null — the difference is
taken against the previous day, never against the last reported
reading. -/
theorem prec_gap_yields_null (fr : Frame) (d : Int) (h1 : fr.lo < d) (h2 : d ≤ fr.hi)
    (h3 : fr.atDay (d - 1) = none) : (derivePrec fr).atDay d = none := by
  simp only [derivePrec, Frame.atDay]
  rw [if_pos ⟨le_of_lt h1, h2⟩]
  unfold precInc
  rw [if_neg (ne_of_gt h1), h3]
  cases fr.atDay d <;> rfl

/-- Witness for C9: in the gapped example the reading at day 2 follows
the missing day 1, so its increment is null even though day 0 reported
a value. -/
theorem prec_gap_yields_null_witness : (derivePrec gapExample).atDay 2 = none :=
  prec_gap_yields_null gapExample 2 (by decide) (by decide) (by decide)

/-- Counterexample to claim C7: a site whose table has a malformed first
row label makes the whole run fail — the second site is never imported —
even though the second site alone imports fine; and a table whose first
column label is unparsable raises instead of yielding an empty series. -/
theorem malformed_table_counterexample :
    errOf (runImports [("siteA", [("WTEQ", badLabelTable)]), ("siteB", [("WTEQ", goodTable)])]
        18700 18700) = some "ValueError: time data does not match format" ∧
    errOf (importVar "WTEQ" goodTable 18700) = none ∧
    errOf (importVar "WTEQ" badColTable 18700) = some "ValueError: invalid literal for int" := by
  refine ⟨by decide, by decide, by decide⟩

/-- Claim C7 as amended: a malformed or missing first-row label (or a
first column label unparsable as an integer) makes reconstruction of
that (site, variable) pair fail, and because `import_snotel` is called
with no surrounding handler, any such failure aborts the entire run
rather than being scoped to the pair; only non-first columns with
unparsable labels are skipped individually. -/
theorem malformed_table_aborts_run :
    (∀ var f today, errOf (bootstrap f) ≠ none →
      errOf (importVar var f today) = errOf (bootstrap f)) ∧
    (∀ inputs today now site tbls, (site, tbls) ∈ inputs →
      errOf (importSite site tbls today now) ≠ none →
      errOf (runImports inputs today now) ≠ none) ∧
    (∀ var f today c, f.cols.head? = some c → intOfString c.1 = none →
      errOf (importVar var f today) ≠ none) ∧
    (∀ labels cs fr c, intOfString c.1 = none →
      addCols labels (c :: cs) fr = addCols labels cs fr) := by
  refine ⟨?_, ?_, ?_, ?_⟩
  · intro var f today h
    unfold importVar
    cases hb : bootstrap f with
    | error e => rfl
    | ok s => rw [hb] at h; exact absurd rfl h
  · intro inputs today now site tbls hmem herr
    induction inputs with
    | nil => cases hmem
    | cons x rest ih =>
      unfold runImports
      cases hx : importSite x.1 x.2 today now with
      | error e => simp [errOf]
      | ok fr =>
        rcases List.mem_cons.mp hmem with h | h
        · rw [← h] at hx; rw [hx] at herr; exact absurd rfl herr
        · have := ih h
          cases hrest : runImports rest today now with
          | error e => simp [errOf]
          | ok frs => rw [hrest] at this; exact absurd rfl this
  · intro var f today c hc hint
    have hb : errOf (bootstrap f) ≠ none := by
      unfold bootstrap
      rw [hc]
      cases hr : f.rowLabels.head? with
      | none => simp [errOf]
      | some l => simp [errOf, hint]
    unfold importVar
    cases hbs : bootstrap f with
    | error e => simp [errOf]
    | ok s => rw [hbs] at hb; exact absurd rfl hb
  · intro labels cs fr c hc
    have e3 : addCols labels (c :: cs) fr
        = (match intOfString c.1 with
           | none => addCols labels cs fr
           | some y =>
               match colPoints (dropna labels c.2) y with
               | Except.error e => Except.error e
               | Except.ok pts => addCols labels cs { fr with vals := applyPts fr.vals pts }) := rfl
    rw [e3, hc]

/-- Witness for the amended C7: on the malformed-label table the import
error is exactly the bootstrap error. -/
theorem malformed_table_aborts_run_witness :
    errOf (importVar "WTEQ" badLabelTable 18700) = errOf (bootstrap badLabelTable) :=
  malformed_table_aborts_run.1 "WTEQ" badLabelTable 18700 (by decide)

/-! ## Merge helper lemmas and claim C5 -/

lemma coverageBegin_cons (a : Frame) (l : List Frame) (seed : Int) :
    coverageBegin (a :: l) seed
      = coverageBegin l (if a.lo ≤ a.hi ∧ a.lo < seed then a.lo else seed) := rfl

lemma coverageEnd_cons (a : Frame) (l : List Frame) (seed : Int) :
    coverageEnd (a :: l) seed
      = coverageEnd l (if a.lo ≤ a.hi ∧ seed < a.hi then a.hi else seed) := rfl

lemma coverageBegin_le_seed (fl : List Frame) (seed : Int) : coverageBegin fl seed ≤ seed := by
  induction fl generalizing seed with
  | nil => exact le_refl seed
  | cons a l ih =>
    rw [coverageBegin_cons]
    refine le_trans (ih _) ?_
    by_cases h : a.lo ≤ a.hi ∧ a.lo < seed
    · rw [if_pos h]; exact le_of_lt h.2
    · rw [if_neg h]

lemma le_coverageBegin (fl : List Frame) (seed L : Int) (hlb : ∀ fr, fr ∈ fl → L ≤ fr.lo)
    (hseed : L ≤ seed) : L ≤ coverageBegin fl seed := by
  induction fl generalizing seed with
  | nil => exact hseed
  | cons a l ih =>
    rw [coverageBegin_cons]
    refine ih _ (fun fr hfr => hlb fr (List.mem_cons_of_mem a hfr)) ?_
    by_cases h : a.lo ≤ a.hi ∧ a.lo < seed
    · rw [if_pos h]; exact hlb a (List.mem_cons_self a l)
    · rw [if_neg h]; exact hseed

lemma coverageBegin_eq (fl : List Frame) (seed L : Int)
    (hall : ∀ fr, fr ∈ fl → fr.lo ≤ fr.hi) (hlb : ∀ fr, fr ∈ fl → L ≤ fr.lo)
    (hmem : ∃ fr, fr ∈ fl ∧ fr.lo = L) (hseed : L ≤ seed) : coverageBegin fl seed = L := by
  induction fl generalizing seed with
  | nil => obtain ⟨fr, hfr, _⟩ := hmem; cases hfr
  | cons a l ih =>
    rw [coverageBegin_cons]
    obtain ⟨fr, hfr, hfrL⟩ := hmem
    rcases List.mem_cons.mp hfr with hfa | hfl
    · subst hfa
      have hseed2 : (if fr.lo ≤ fr.hi ∧ fr.lo < seed then fr.lo else seed) = L := by
        by_cases h : fr.lo ≤ fr.hi ∧ fr.lo < seed
        · rw [if_pos h]; exact hfrL
        · rw [if_neg h]
          rcases not_and_or.mp h with h1 | h2
          · exact absurd (hall fr (List.mem_cons_self fr l)) h1
          · have := not_lt.mp h2
            omega
      rw [hseed2]
      refine le_antisymm ?_ ?_
      · exact coverageBegin_le_seed l L
      · exact le_coverageBegin l L L (fun g hg => hlb g (List.mem_cons_of_mem fr hg)) (le_refl L)
    · refine ih _ (fun g hg => hall g (List.mem_cons_of_mem a hg))
        (fun g hg => hlb g (List.mem_cons_of_mem a hg)) ⟨fr, hfl, hfrL⟩ ?_
      by_cases h : a.lo ≤ a.hi ∧ a.lo < seed
      · rw [if_pos h]; exact hlb a (List.mem_cons_self a l)
      · rw [if_neg h]; exact hseed

lemma coverageEnd_fixed (fl : List Frame) (e : Int) (hall : ∀ fr, fr ∈ fl → fr.hi = e) :
    coverageEnd fl e = e := by
  induction fl with
  | nil => rfl
  | cons a l ih =>
    rw [coverageEnd_cons]
    have ha : a.hi = e := hall a (List.mem_cons_self a l)
    rw [if_neg (by rw [ha]; intro h; exact absurd h.2 (lt_irrefl e))]
    exact ih (fun g hg => hall g (List.mem_cons_of_mem a hg))

lemma mem_dateRange (b e d : Int) : d ∈ dateRange b e ↔ b ≤ d ∧ d ≤ e := by
  unfold dateRange
  constructor
  · intro h
    obtain ⟨k, hk, hkd⟩ := List.mem_map.mp h
    rw [List.mem_range] at hk
    omega
  · intro h
    refine List.mem_map.mpr ⟨(d - b).toNat, ?_, ?_⟩
    · rw [List.mem_range]; omega
    · omega

lemma nodup_dateRange (b e : Int) : (dateRange b e).Nodup := by
  unfold dateRange
  exact List.Nodup.map (fun x y h => by omega) (List.nodup_range _)

/-- Claim C5: with every variable frame nonempty and ending today (as
`import_snotel` builds them) and `L` the least frame start, the merged
per-site index contains exactly the days of `[L, now]`, each exactly
once, and a day on which a variable has no reading is null in that
variable's merged column. -/
theorem merged_index_contiguous (site : String) (frames : List (String × Frame)) (now L : Int)
    (hall : ∀ p, p ∈ frames → p.2.lo ≤ p.2.hi ∧ p.2.hi = now)
    (hlb : ∀ p, p ∈ frames → L ≤ p.2.lo)
    (hmem : ∃ p, p ∈ frames ∧ p.2.lo = L) :
    (∀ d, d ∈ (mergeFrames site frames now).index ↔ L ≤ d ∧ d ≤ now) ∧
    (mergeFrames site frames now).index.Nodup ∧
    (∀ v fr d, frames.lookup v = some fr → fr.atDay d = none →
      (mergeFrames site frames now).col v d = none) := by
  have hLnow : L ≤ now := by
    obtain ⟨p, hp, hpl⟩ := hmem
    have h1 := (hall p hp).1
    have h2 := (hall p hp).2
    omega
  have hb : coverageBegin (frames.map Prod.snd) now = L := by
    apply coverageBegin_eq _ _ _ ?_ ?_ ?_ hLnow
    · intro fr hfr
      obtain ⟨p, hp, hpq⟩ := List.mem_map.mp hfr
      exact hpq ▸ (hall p hp).1
    · intro fr hfr
      obtain ⟨p, hp, hpq⟩ := List.mem_map.mp hfr
      exact hpq ▸ hlb p hp
    · obtain ⟨p, hp, hpl⟩ := hmem
      exact ⟨p.2, List.mem_map.mpr ⟨p, hp, rfl⟩, hpl⟩
  have he : coverageEnd (frames.map Prod.snd) now = now := by
    apply coverageEnd_fixed
    intro fr hfr
    obtain ⟨p, hp, hpq⟩ := List.mem_map.mp hfr
    exact hpq ▸ (hall p hp).2
  refine ⟨?_, ?_, ?_⟩
  · intro d
    show d ∈ dateRange (coverageBegin (frames.map Prod.snd) now)
        (coverageEnd (frames.map Prod.snd) now) ↔ _
    rw [hb, he, mem_dateRange]
  · show (dateRange (coverageBegin (frames.map Prod.snd) now)
        (coverageEnd (frames.map Prod.snd) now)).Nodup
    exact nodup_dateRange _ _
  · intro v fr d hlk hnone
    show (match frames.lookup v with
      | some fr => fr.atDay d
      | none => none) = none
    rw [hlk]
    exact hnone

/-- Frames used by the C5 witness: a variable with no readings on window
10..20 and a variable with one reading on window 5..20. -/
def frameWTEQ : Frame := ⟨10, 20, fun _ => none⟩

/-- Second witness frame for C5. -/
def framePREC : Frame := ⟨5, 20, fun d => if d = 6 then some 1 else none⟩

/-- Witness for C5: on the two example frames, day 7 lies in the merged
index because 5 ≤ 7 ≤ 20, the index has no duplicates, and the `WTEQ`
column is null at day 12 where `WTEQ` has no reading. -/
theorem merged_index_contiguous_witness :
    ((7 : Int) ∈ (mergeFrames "site" [("WTEQ", frameWTEQ), ("PREC", framePREC)] 20).index ↔
      (5 : Int) ≤ 7 ∧ (7 : Int) ≤ 20) ∧
    (mergeFrames "site" [("WTEQ", frameWTEQ), ("PREC", framePREC)] 20).index.Nodup ∧
    (mergeFrames "site" [("WTEQ", frameWTEQ), ("PREC", framePREC)] 20).col "WTEQ" 12 = none := by
  have h := merged_index_contiguous "site" [("WTEQ", frameWTEQ), ("PREC", framePREC)] 20 5
    (by
      intro p hp
      simp only [List.mem_cons, List.not_mem_nil, or_false] at hp
      rcases hp with rfl | rfl <;> exact ⟨by decide, by decide⟩)
    (by
      intro p hp
      simp only [List.mem_cons, List.not_mem_nil, or_false] at hp
      rcases hp with rfl | rfl <;> decide)
    ⟨("PREC", framePREC), by simp, rfl⟩
  exact ⟨h.1 7, h.2.1, h.2.2 "WTEQ" frameWTEQ 12 rfl rfl⟩

/-! ## Writer helper lemmas and example data -/

/-- A store with no database file and no tables. -/
def emptyStore : Store := ⟨false, fun _ => none⟩

/-- A one-row merged table for site `"A"`. -/
def dfA : List Row := [⟨"A", some 1, 5⟩]

/-- A two-site merged table. -/
def dfAB : List Row := [⟨"A", some 1, 5⟩, ⟨"B", some 2, 6⟩]

/-- The sqlite-failure oracle that fails exactly on site `b`'s table. -/
def failOn (b : String) : String → Bool := fun t => decide (t = "snotel_" ++ b)

/-- The sqlite-failure oracle of a run with no write failures. -/
def noFail : String → Bool := fun _ => false

lemma snotel_name_inj (s s' : String) (h : "snotel_" ++ s = "snotel_" ++ s') : s = s' := by
  have hd := congrArg String.data h
  simp only [String.data_append] at hd
  exact String.ext (List.append_cancel_left hd)

lemma short_not_snotel (s : String) (h : s.length < 7) : ∀ x, s ≠ "snotel_" ++ x := by
  intro x hx
  have hlen := congrArg String.length hx
  rw [String.length_append] at hlen
  have h7 : ("snotel_" : String).length = 7 := by decide
  omega

lemma writeSiteStep_skip (mode : IfExists) (cd : Bool) (qf sf : String → Bool) (df : List Row)
    (st : Store) (s : String) (h : df.filter (fun r => r.site = s) = []) :
    writeSiteStep mode cd qf sf df st s = st := by
  unfold writeSiteStep
  simp [h]

lemma writeSiteStep_cases (mode : IfExists) (cd : Bool) (qf sf : String → Bool) (df : List Row)
    (st : Store) (s : String) :
    writeSiteStep mode cd qf sf df st s = st ∨
      ∃ rows, writeSiteStep mode cd qf sf df st s = toSql st ("snotel_" ++ s) mode rows := by
  unfold writeSiteStep
  by_cases h1 : df.filter (fun r => r.site = s) = []
  · rw [if_pos h1]
    exact Or.inl rfl
  · rw [if_neg h1]
    by_cases h2 : sf ("snotel_" ++ s) = true
    · rw [if_pos h2]
      exact Or.inl rfl
    · rw [if_neg h2]
      exact Or.inr ⟨_, rfl⟩

lemma writeSiteStep_tables_other (mode : IfExists) (cd : Bool) (qf sf : String → Bool)
    (df : List Row) (st : Store) (s t : String) (h : t ≠ "snotel_" ++ s) :
    (writeSiteStep mode cd qf sf df st s).tables t = st.tables t := by
  rcases writeSiteStep_cases mode cd qf sf df st s with hc | ⟨rows, hc⟩
  · rw [hc]
  · rw [hc]
    simp [toSql, h]

lemma writeSiteStep_fileExists_false (mode : IfExists) (cd : Bool) (qf sf : String → Bool)
    (df : List Row) (st : Store) (s : String)
    (h : (writeSiteStep mode cd qf sf df st s).fileExists = false) :
    writeSiteStep mode cd qf sf df st s = st ∧ st.fileExists = false := by
  rcases writeSiteStep_cases mode cd qf sf df st s with hc | ⟨rows, hc⟩
  · rw [hc] at h ⊢
    exact ⟨rfl, h⟩
  · rw [hc] at h
    simp [toSql] at h

lemma foldl_tables_untouched (mode : IfExists) (cd : Bool) (qf sf : String → Bool)
    (df : List Row) (l : List String) (st : Store) (t : String)
    (h : ∀ s, s ∈ l → t ≠ "snotel_" ++ s) :
    (l.foldl (writeSiteStep mode cd qf sf df) st).tables t = st.tables t := by
  induction l generalizing st with
  | nil => rfl
  | cons a l ih =>
    rw [List.foldl_cons]
    rw [ih (writeSiteStep mode cd qf sf df st a) (fun s hs => h s (List.mem_cons_of_mem a hs))]
    exact writeSiteStep_tables_other mode cd qf sf df st a t (h a (List.mem_cons_self a l))

lemma writeSiteStep_keeps_some (mode : IfExists) (cd : Bool) (qf sf : String → Bool)
    (df : List Row) (st : Store) (s t : String) (h : st.tables t ≠ none) :
    (writeSiteStep mode cd qf sf df st s).tables t ≠ none := by
  rcases writeSiteStep_cases mode cd qf sf df st s with hc | ⟨rows, hc⟩
  · rw [hc]; exact h
  · rw [hc]
    by_cases ht : t = "snotel_" ++ s
    · simp [toSql, ht]
    · simp [toSql, ht]; exact h

lemma foldl_keeps_some (mode : IfExists) (cd : Bool) (qf sf : String → Bool)
    (df : List Row) (l : List String) (st : Store) (t : String) (h : st.tables t ≠ none) :
    (l.foldl (writeSiteStep mode cd qf sf df) st).tables t ≠ none := by
  induction l generalizing st with
  | nil => exact h
  | cons a l ih =>
    rw [List.foldl_cons]
    exact ih _ (writeSiteStep_keeps_some mode cd qf sf df st a t h)

lemma writeSiteStep_writes (mode : IfExists) (cd : Bool) (qf sf : String → Bool)
    (df : List Row) (st : Store) (s : String)
    (hne : df.filter (fun r => r.site = s) ≠ []) (hsf : sf ("snotel_" ++ s) = false) :
    (writeSiteStep mode cd qf sf df st s).tables ("snotel_" ++ s) ≠ none := by
  unfold writeSiteStep
  rw [if_neg hne, if_neg (by simp [hsf])]
  simp [toSql]

lemma mem_uniqueSites_filter_ne (df : List Row) (s : String) (h : s ∈ uniqueSites df) :
    df.filter (fun r => r.site = s) ≠ [] := by
  unfold uniqueSites at h
  rw [List.mem_dedup] at h
  obtain ⟨r, hr, hrs⟩ := List.mem_map.mp h
  intro hnil
  have := List.filter_eq_nil_iff.mp hnil r hr
  simp [hrs] at this

/-! ## Writer claim theorems -/

/-- Claim C2 is a code bug: `get_unique_dates` is called with the bare
site id as table name while rows are written to `snotel_{site_id}`, so
the dedup frontier is always empty and a second append-with-dedup run of
the same one-row table appends the row again instead of writing zero
rows; the queried table name never exists in the store. -/
theorem append_dedup_not_idempotent :
    (writeDb IfExists.append true noFail noFail dfA
        (writeDb IfExists.append true noFail noFail dfA emptyStore)).tables "snotel_A"
      = some [⟨"A", some 1, 5⟩, ⟨"A", some 1, 5⟩] ∧
    (writeDb IfExists.append true noFail noFail dfA emptyStore).tables "snotel_A"
      = some [⟨"A", some 1, 5⟩] ∧
    (writeDb IfExists.append true noFail noFail dfA emptyStore).tables "A" = none := by
  refine ⟨by decide, by decide, by decide⟩

/-- Claim C10: when the dedup-frontier read fails — no database file,
no such table, or any exception raised by the distinct-dates query — the
frontier is the empty set and the append-with-dedup step appends every
incoming row for the site, surfacing no error. -/
theorem dedup_frontier_failure_appends_all (qf sf : String → Bool) (df : List Row)
    (store : Store) (site : String)
    (hfail : store.fileExists = false ∨ store.tables site = none ∨ qf site = true) :
    getUniqueDates qf store site = [] ∧
    (df.filter (fun r => r.site = site) ≠ [] → sf ("snotel_" ++ site) = false →
      writeSiteStep IfExists.append true qf sf df store site
        = toSql store ("snotel_" ++ site) IfExists.append (df.filter (fun r => r.site = site))) := by
  have hud : getUniqueDates qf store site = [] := by
    unfold getUniqueDates
    by_cases hf : store.fileExists = false
    · rw [if_pos hf]
    · rw [if_neg hf]
      by_cases hq : qf site = true
      · rw [if_pos hq]
      · rw [if_neg hq]
        rcases hfail with h | h | h
        · exact absurd h hf
        · rw [h]
        · exact absurd h hq
  refine ⟨hud, ?_⟩
  intro hne hsf
  unfold writeSiteStep
  rw [if_neg hne, if_neg (by simp [hsf]), if_pos ⟨rfl, rfl⟩, hud]
  have hfilter : (df.filter (fun r => r.site = site)).filter
      (fun r => match r.date with
        | none => true
        | some d => !(([] : List Nat).contains d)) = df.filter (fun r => r.site = site) := by
    apply List.filter_eq_self.mpr
    intro r _
    cases r.date <;> rfl
  rw [hfilter]

/-- Witness for C10: on an absent database file the frontier is empty
and the single incoming row for site `"A"` is appended unfiltered. -/
theorem dedup_frontier_failure_appends_all_witness :
    getUniqueDates noFail emptyStore "A" = [] ∧
    writeSiteStep IfExists.append true noFail noFail dfA emptyStore "A"
      = toSql emptyStore ("snotel_" ++ "A") IfExists.append (dfA.filter (fun r => r.site = "A")) := by
  have h := dedup_frontier_failure_appends_all noFail noFail dfA emptyStore "A" (Or.inl rfl)
  exact ⟨h.1, h.2 (by decide) rfl⟩

/-- Claim C8: a run of the writer leaves every table not named after an
incoming site unchanged, a site partition with no incoming rows is
skipped with no write and no error, and every incoming site whose write
does not fail ends up with its table present. -/
theorem writer_mutates_only_incoming_sites (mode : IfExists) (cd : Bool) (qf sf : String → Bool)
    (df : List Row) (store : Store) :
    (∀ t, (∀ s, s ∈ uniqueSites df → t ≠ "snotel_" ++ s) →
        (writeDb mode cd qf sf df store).tables t = store.tables t) ∧
    (∀ st s, df.filter (fun r => r.site = s) = [] →
        writeSiteStep mode cd qf sf df st s = st) ∧
    (∀ s, s ∈ uniqueSites df → sf ("snotel_" ++ s) = false →
        (writeDb mode cd qf sf df store).tables ("snotel_" ++ s) ≠ none) := by
  refine ⟨?_, ?_, ?_⟩
  · intro t ht
    exact foldl_tables_untouched mode cd qf sf df (uniqueSites df) store t ht
  · intro st s h
    exact writeSiteStep_skip mode cd qf sf df st s h
  · intro s hs hsf
    have hne := mem_uniqueSites_filter_ne df s hs
    unfold writeDb
    have : ∀ (l : List String) (st : Store), s ∈ l →
        (l.foldl (writeSiteStep mode cd qf sf df) st).tables ("snotel_" ++ s) ≠ none := by
      intro l
      induction l with
      | nil => intro st h; cases h
      | cons a l ih =>
        intro st hmem
        rw [List.foldl_cons]
        rcases List.mem_cons.mp hmem with h | h
        · subst h
          exact foldl_keeps_some mode cd qf sf df l _ _
            (writeSiteStep_writes mode cd qf sf df st s hne hsf)
        · exact ih _ h
    exact this (uniqueSites df) store hs

/-! ## Claim C6: partial-failure isolation -/

/-- Relation between the store of a run whose write of `b`'s table fails
and the store of the same run with no failures: the two agree outside
`b`'s table, tables not named after any site keep their initial
contents, a still-missing database file means nothing was written, and
the failing run's file can only lag behind the clean run's. -/
def SiblingInv (store : Store) (b : String) (st1 st2 : Store) : Prop :=
  (∀ t, t ≠ "snotel_" ++ b → st1.tables t = st2.tables t) ∧
  (∀ t, (∀ s, t ≠ "snotel_" ++ s) → st1.tables t = store.tables t) ∧
  (st1.fileExists = false → store.fileExists = false ∧ ∀ t, st1.tables t = none) ∧
  (st2.fileExists = false → st1.fileExists = false)

lemma step1_at_b (mode : IfExists) (cd : Bool) (qf : String → Bool) (df : List Row)
    (st1 : Store) (b : String) : writeSiteStep mode cd qf (failOn b) df st1 b = st1 := by
  unfold writeSiteStep
  by_cases h1 : df.filter (fun r => r.site = b) = []
  · rw [if_pos h1]
  · rw [if_neg h1, if_pos (by simp [failOn])]

lemma sibling_ud (qf : String → Bool) (store : Store) (b : String) (st1 st2 : Store) (s : String)
    (hInv : SiblingInv store b st1 st2) (hs : ∀ x, s ≠ "snotel_" ++ x) :
    getUniqueDates qf st1 s = getUniqueDates qf st2 s := by
  obtain ⟨hA, hB, hC, hD⟩ := hInv
  unfold getUniqueDates
  by_cases h1 : st1.fileExists = false
  · rw [if_pos h1]
    obtain ⟨hst, htab⟩ := hC h1
    by_cases h2 : st2.fileExists = false
    · rw [if_pos h2]
    · rw [if_neg h2]
      by_cases h3 : qf s = true
      · rw [if_pos h3]
      · rw [if_neg h3]
        have hnone : st2.tables s = none := by rw [← hA s (hs b)]; exact htab s
        rw [hnone]
  · rw [if_neg h1]
    have h2 : ¬ st2.fileExists = false := fun hh => h1 (hD hh)
    rw [if_neg h2]
    by_cases h3 : qf s = true
    · rw [if_pos h3, if_pos h3]
    · rw [if_neg h3, if_neg h3, hA s (hs b)]

lemma sibling_toSql (store : Store) (b : String) (st1 st2 : Store) (s : String) (mode : IfExists)
    (R : List Row) (hInv : SiblingInv store b st1 st2) (hsb : s ≠ b) :
    SiblingInv store b (toSql st1 ("snotel_" ++ s) mode R) (toSql st2 ("snotel_" ++ s) mode R) := by
  obtain ⟨hA, hB, hC, hD⟩ := hInv
  have hnb : ("snotel_" ++ s) ≠ ("snotel_" ++ b) := fun hh => hsb (snotel_name_inj s b hh)
  refine ⟨?_, ?_, ?_, ?_⟩
  · intro t ht
    simp only [toSql]
    by_cases h : t = "snotel_" ++ s
    · rw [if_pos h, if_pos h, hA ("snotel_" ++ s) hnb]
    · rw [if_neg h, if_neg h]
      exact hA t ht
  · intro t ht
    simp only [toSql]
    rw [if_neg (ht s)]
    exact hB t ht
  · intro hfe
    simp [toSql] at hfe
  · intro hfe
    simp [toSql] at hfe

lemma sibling_step (mode : IfExists) (cd : Bool) (qf : String → Bool) (df : List Row)
    (store : Store) (b : String) (st1 st2 : Store) (s : String)
    (hInv : SiblingInv store b st1 st2) (hs : ∀ x, s ≠ "snotel_" ++ x) (hsb : s ≠ b) :
    SiblingInv store b (writeSiteStep mode cd qf (failOn b) df st1 s)
      (writeSiteStep mode cd qf noFail df st2 s) := by
  by_cases hp : df.filter (fun r => r.site = s) = []
  · rw [writeSiteStep_skip mode cd qf (failOn b) df st1 s hp,
      writeSiteStep_skip mode cd qf noFail df st2 s hp]
    exact hInv
  · have hsf1 : failOn b ("snotel_" ++ s) = false := by
      simp only [failOn, decide_eq_false_iff_not]
      exact fun h => hsb (snotel_name_inj s b h)
    have hud := sibling_ud qf store b st1 st2 s hInv hs
    have e1 : writeSiteStep mode cd qf (failOn b) df st1 s
        = toSql st1 ("snotel_" ++ s) mode
          (if mode = IfExists.append ∧ cd = true then
            (df.filter (fun r => r.site = s)).filter (fun r =>
              match r.date with
              | none => true
              | some d => !((getUniqueDates qf st1 s).contains d))
          else df.filter (fun r => r.site = s)) := by
      unfold writeSiteStep
      rw [if_neg hp, if_neg (by simp [hsf1])]
    have e2 : writeSiteStep mode cd qf noFail df st2 s
        = toSql st2 ("snotel_" ++ s) mode
          (if mode = IfExists.append ∧ cd = true then
            (df.filter (fun r => r.site = s)).filter (fun r =>
              match r.date with
              | none => true
              | some d => !((getUniqueDates qf st2 s).contains d))
          else df.filter (fun r => r.site = s)) := by
      unfold writeSiteStep
      rw [if_neg hp, if_neg (by simp [noFail])]
    rw [e1, e2, hud]
    exact sibling_toSql store b st1 st2 s mode _ hInv hsb

lemma sibling_bstep (mode : IfExists) (cd : Bool) (qf : String → Bool) (df : List Row)
    (store : Store) (b : String) (st1 st2 : Store) (hInv : SiblingInv store b st1 st2) :
    SiblingInv store b st1 (writeSiteStep mode cd qf noFail df st2 b) := by
  obtain ⟨hA, hB, hC, hD⟩ := hInv
  refine ⟨?_, hB, hC, ?_⟩
  · intro t ht
    rw [writeSiteStep_tables_other mode cd qf noFail df st2 b t ht]
    exact hA t ht
  · intro hfe
    obtain ⟨heq, hf2⟩ := writeSiteStep_fileExists_false mode cd qf noFail df st2 b hfe
    exact hD hf2

lemma sibling_fold (mode : IfExists) (cd : Bool) (qf : String → Bool) (df : List Row)
    (store : Store) (b : String) (l : List String) (st1 st2 : Store)
    (hl : ∀ s, s ∈ l → ∀ x, s ≠ "snotel_" ++ x) (hInv : SiblingInv store b st1 st2) :
    SiblingInv store b (l.foldl (writeSiteStep mode cd qf (failOn b) df) st1)
      (l.foldl (writeSiteStep mode cd qf noFail df) st2) := by
  induction l generalizing st1 st2 with
  | nil => exact hInv
  | cons a l ih =>
    rw [List.foldl_cons, List.foldl_cons]
    by_cases hab : a = b
    · subst hab
      rw [step1_at_b]
      exact ih _ _ (fun s hs => hl s (List.mem_cons_of_mem a hs))
        (sibling_bstep mode cd qf df store a st1 st2 hInv)
    · exact ih _ _ (fun s hs => hl s (List.mem_cons_of_mem a hs))
        (sibling_step mode cd qf df store b st1 st2 a hInv (hl a (List.mem_cons_self a l)) hab)

/-- Claim C6: if the write of site `b`'s table fails with a store write
error (`sqlite3.Error`, caught and logged by the writer), every other
site's table ends up exactly as in the same run with no failure: one
site's failure neither aborts nor corrupts sibling sites' writes. -/
theorem site_failure_isolated (mode : IfExists) (cd : Bool) (qf : String → Bool) (df : List Row)
    (store : Store) (b : String) (hwf : store.wf)
    (hsites : ∀ s, s ∈ uniqueSites df → ∀ x, s ≠ "snotel_" ++ x) :
    ∀ s, s ∈ uniqueSites df → s ≠ b →
      (writeDb mode cd qf (failOn b) df store).tables ("snotel_" ++ s)
        = (writeDb mode cd qf noFail df store).tables ("snotel_" ++ s) := by
  intro s hs hsb
  have hInv0 : SiblingInv store b store store :=
    ⟨fun _ _ => rfl, fun _ _ => rfl, fun h => ⟨h, fun t => hwf h t⟩, fun h => h⟩
  have h := sibling_fold mode cd qf df store b (uniqueSites df) store store hsites hInv0
  exact h.1 ("snotel_" ++ s) (fun hh => hsb (snotel_name_inj s b hh))

/-- Witness for C6: on the two-site table, failing site `"B"`'s write
leaves site `"A"`'s table identical to the failure-free run. -/
theorem site_failure_isolated_witness :
    (writeDb IfExists.append true noFail (failOn "B") dfAB emptyStore).tables ("snotel_" ++ "A")
      = (writeDb IfExists.append true noFail noFail dfAB emptyStore).tables ("snotel_" ++ "A") := by
  have hwf : emptyStore.wf := fun _ _ => rfl
  have hsites : ∀ s, s ∈ uniqueSites dfAB → ∀ x, s ≠ "snotel_" ++ x := by
    intro s hs
    have hmem : s = "A" ∨ s = "B" := by
      have : uniqueSites dfAB = ["A", "B"] := by decide
      rw [this] at hs
      simpa using hs
    rcases hmem with rfl | rfl
    · exact short_not_snotel "A" (by decide)
    · exact short_not_snotel "B" (by decide)
  exact site_failure_isolated IfExists.append true noFail dfAB emptyStore "B" hwf hsites
    "A" (by decide) (by decide)

/-- Witness for C8: with the one-site table for `"A"`, an unrelated
table `"X"` is untouched, a site `"B"` with no rows is skipped, and
site `"A"`'s table exists after the run. -/
theorem writer_mutates_only_incoming_sites_witness :
    (writeDb IfExists.replace false noFail noFail dfA emptyStore).tables "X"
      = emptyStore.tables "X" ∧
    writeSiteStep IfExists.replace false noFail noFail dfA emptyStore "B" = emptyStore ∧
    (writeDb IfExists.replace false noFail noFail dfA emptyStore).tables ("snotel_" ++ "A")
      ≠ none := by
  have h := writer_mutates_only_incoming_sites IfExists.replace false noFail noFail dfA emptyStore
  exact ⟨h.1 "X" (by decide), h.2.1 emptyStore "B" (by decide), h.2.2 "A" (by decide) rfl⟩

end Snotel
